import Mathlib

/-!
# Verification of the MFT attribute decoder (437.py)

Shallow embedding of the NTFS MFT attribute decoders of `src/437.py`
(the `libmft` attribute module) and proofs about them.

Byte buffers are modelled as `List Nat` (a `memoryview` of a `bytearray`;
every element of a real buffer is `< 256`).  Python slicing `b[i:j]`
clamps at the ends and never fails; indexing `b[i]` raises `IndexError`
out of bounds.  Fallible decoders return `Except PyError _`, where
`PyError` enumerates the exceptions the decoding code can actually raise.
-/

/-- The exceptions the decode paths of `437.py` can raise.  `structError` is
`struct.error` (an unpack got fewer bytes than the format needs),
`valueError` is Python's `ValueError` (an enum constructor rejecting an
unknown code, or tuple unpacking with the wrong arity), `indexError` is an
out-of-bounds `memoryview` index, `contentError` is `libmft.exceptions.ContentError`,
`unicodeDecodeError` is a failed UTF-16-LE decode, `nameError` is Python's
`NameError` (a function body referencing a name its globals do not bind, as
the generated `__eq__` bodies do).  `nonTermination` is a marker for a loop
of the source that never terminates (Python would hang); it is distinct
from every real exception. -/
inductive PyError where
  | structError
  | valueError
  | indexError
  | contentError
  | unicodeDecodeError
  | nameError
  | nonTermination
deriving DecidableEq, Repr

/-- A Python binary buffer: the sequence of byte values of a `memoryview`. -/
abbrev ByteBuf := List Nat

/-- Python slicing `l[i:j]` for `0 ≤ i ≤ j`: clamps to the ends, never fails. -/
def sliceList (l : ByteBuf) (i j : Nat) : ByteBuf :=
  (l.take j).drop i

/-- Embeds `int.from_bytes(bs, "little", signed=False)`. -/
def leBytesToNat (bs : ByteBuf) : Nat :=
  bs.foldr (fun b acc => b + 256 * acc) 0

/-- Embeds `int.from_bytes(bs, "little", signed=True)`: two's complement over the
actual number of bytes present (an empty byte string gives 0). -/
def leBytesToInt (bs : ByteBuf) : Int :=
  let n := leBytesToNat bs
  if n < 2 ^ (8 * bs.length - 1) ∨ bs.length = 0 then (n : Int)
  else (n : Int) - 2 ^ (8 * bs.length)

/-- Embeds `int.from_bytes(bs, "big")` (unsigned). -/
def beBytesToNat (bs : ByteBuf) : Nat :=
  bs.foldl (fun acc b => 256 * acc + b) 0

/-- Little-endian field of `n` bytes at offset `off` (a `struct` member such
as `I`, `H` or `Q`); callers check the enclosing buffer is long enough. -/
def leField (s : ByteBuf) (off n : Nat) : Nat :=
  leBytesToNat (sliceList s off (off + n))

/-!
## DataRuns (`437.py` lines 246-327)

`DataRuns.create_from_binary` walks the run list: one header byte per run,
low nibble = byte length of the cluster-count field, high nibble = byte
length of the signed relative offset field; a zero header byte terminates.
A zero-sized offset field marks a sparse run (`offset = None`); otherwise
the signed relative offset is added to the running previous offset.

The `while binary_view[offset] != 0` check is a `memoryview` index and
raises `IndexError` once `offset` walks past the end of the buffer; the
field reads are slices and silently truncate.  The loop advances `offset`
by at least one byte per iteration, so fuel `l.length + 2` is never
exhausted on such a walk; `nonTermination` is unreachable and only present
so the recursion is structural.
-/

/-- One decoded data run: `(cluster count, absolute offset)`, with `none`
for a sparse run, exactly the `(dr_length, dr_offset)` tuples the source
appends to `data_runs`. -/
abbrev DataRun := Nat × Option Int

/-- The run-list loop of `DataRuns.create_from_binary`, carrying the current
`offset` and the `previous_dr_offset` accumulator. -/
def dataRunsGo : Nat → ByteBuf → Nat → Int → Except PyError (List DataRun)
  | 0, _, _, _ => .error .nonTermination
  | fuel + 1, l, offset, prev =>
    match l.get? offset with
    | none => .error .indexError
    | some header =>
      if header = 0 then .ok []
      else
        let lengthLen := header &&& 0x0F
        let lengthOffset := (header &&& 0xF0) >>> 4
        let tempLen := offset + 1 + lengthLen
        let drLength := leBytesToNat (sliceList l (offset + 1) tempLen)
        if lengthOffset = 0 then
          match dataRunsGo fuel l (tempLen + lengthOffset) prev with
          | .ok rest => .ok ((drLength, none) :: rest)
          | .error e => .error e
        else
          let drOffset := leBytesToInt (sliceList l tempLen (tempLen + lengthOffset)) + prev
          match dataRunsGo fuel l (tempLen + lengthOffset) drOffset with
          | .ok rest => .ok ((drLength, some drOffset) :: rest)
          | .error e => .error e

/-- Embeds the parsing performed by one `DataRuns.create_from_binary` call
(`437.py:275-311`) in isolation: the runs this call parses and appends, in
order, or the exception the loop raises.  The *returned object's*
`data_runs`, however, is not this list alone: `DataRuns.__init__` has a
mutable default (`data_runs=[]`, `437.py:271`), one list object shared by
every `cls()` call, so the object aliases that shared list and the appends
land after whatever earlier calls left in it — that state is modelled by
`dataRunsCreateWithState`. -/
def dataRunsCreateFromBinary (l : ByteBuf) : Except PyError (List DataRun) :=
  dataRunsGo (l.length + 2) l 0 0

/-- The run-list loop acting on the shared `data_runs` list: the same walk
as `dataRunsGo`, but threading the list `acc` the new object aliases and
appending each decoded run to it (`nw_obj.data_runs.append(...)`,
`437.py:306`).  Returns the list contents when the loop stops together
with the exception, if one is raised — appends made before an exception
stay in the shared list. -/
def dataRunsGoSt : Nat → ByteBuf → Nat → Int → List DataRun → List DataRun × Option PyError
  | 0, _, _, _, acc => (acc, some .nonTermination)
  | fuel + 1, l, offset, prev, acc =>
    match l.get? offset with
    | none => (acc, some .indexError)
    | some header =>
      if header = 0 then (acc, none)
      else
        let lengthLen := header &&& 0x0F
        let lengthOffset := (header &&& 0xF0) >>> 4
        let tempLen := offset + 1 + lengthLen
        let drLength := leBytesToNat (sliceList l (offset + 1) tempLen)
        if lengthOffset = 0 then
          dataRunsGoSt fuel l (tempLen + lengthOffset) prev (acc ++ [(drLength, none)])
        else
          let drOffset := leBytesToInt (sliceList l tempLen (tempLen + lengthOffset)) + prev
          dataRunsGoSt fuel l (tempLen + lengthOffset) drOffset (acc ++ [(drLength, some drOffset)])

/-- Embeds one full call of `DataRuns.create_from_binary` given `st`, the
contents of the class's shared mutable default list at call time: the
shared list's contents after the call — which are also the returned
object's `data_runs`, since `nw_obj = cls()` (`437.py:288`) binds the
object to that same list — paired with the exception raised, if any.
`previous_dr_offset` restarts at 0 on every call regardless of `st`. -/
def dataRunsCreateWithState (st : List DataRun) (l : ByteBuf) : List DataRun × Option PyError :=
  dataRunsGoSt (l.length + 2) l 0 0 st

/-- The same run-list walk, but recording each non-sparse run's *relative*
offset exactly as read from its offset field, with no accumulation.  This is
the raw binary content of the run list; it differs from `dataRunsGo` only in
not adding `previous_dr_offset`. -/
def dataRunsRawGo : Nat → ByteBuf → Nat → Except PyError (List DataRun)
  | 0, _, _ => .error .nonTermination
  | fuel + 1, l, offset =>
    match l.get? offset with
    | none => .error .indexError
    | some header =>
      if header = 0 then .ok []
      else
        let lengthLen := header &&& 0x0F
        let lengthOffset := (header &&& 0xF0) >>> 4
        let tempLen := offset + 1 + lengthLen
        let drLength := leBytesToNat (sliceList l (offset + 1) tempLen)
        if lengthOffset = 0 then
          match dataRunsRawGo fuel l (tempLen + lengthOffset) with
          | .ok rest => .ok ((drLength, none) :: rest)
          | .error e => .error e
        else
          let relOffset := leBytesToInt (sliceList l tempLen (tempLen + lengthOffset))
          match dataRunsRawGo fuel l (tempLen + lengthOffset) with
          | .ok rest => .ok ((drLength, some relOffset) :: rest)
          | .error e => .error e

/-- Absolute-offset accumulation over a list of raw runs, as the claimed
invariant words it: a non-sparse run's absolute offset is its signed
relative offset plus the absolute offset of the most recent preceding
non-sparse run (`prev`, initially 0); sparse runs are skipped by the
accumulation and leave `prev` unchanged. -/
def accumRuns (prev : Int) : List DataRun → List DataRun
  | [] => []
  | (len, none) :: rest => (len, none) :: accumRuns prev rest
  | (len, some rel) :: rest => (len, some (rel + prev)) :: accumRuns (rel + prev) rest

theorem dataRunsGo_eq_accum_raw (fuel : Nat) (l : ByteBuf) :
    ∀ offset prev, dataRunsGo fuel l offset prev =
      (dataRunsRawGo fuel l offset).map (accumRuns prev) := by
  induction fuel with
  | zero => intro offset prev; rfl
  | succ fuel ih =>
    intro offset prev
    simp only [dataRunsGo, dataRunsRawGo]
    cases l.get? offset with
    | none => rfl
    | some header =>
      simp only
      by_cases h0 : header = 0
      · simp [h0, accumRuns, Except.map]
      · simp only [h0, if_false]
        by_cases hlo : (header &&& 0xF0) >>> 4 = 0
        · simp only [hlo, if_true, ih, Nat.add_zero]
          cases dataRunsRawGo fuel l (offset + 1 + (header &&& 0x0F)) with
          | ok rest => rfl
          | error e => rfl
        · simp only [hlo, if_false, ih]
          cases dataRunsRawGo fuel l (offset + 1 + (header &&& 0x0F) + ((header &&& 0xF0) >>> 4)) with
          | ok rest => rfl
          | error e => rfl

/-- If a non-terminator run header at `off` declares length/offset fields
that extend past the end of the buffer, the walk fails with `IndexError`:
the field reads are slices (silently truncated), `offset` is advanced past
the end, and the next `while binary_view[offset] != 0` probe is an
out-of-bounds `memoryview` index.  No `MalformedRunListError` exists
anywhere in the module (`437.py` imports only `HeaderError` and
`ContentError` from `libmft.exceptions`). -/
theorem dataRunsGo_overrun (fuel : Nat) (l : ByteBuf) (off : Nat) (prev : Int) (h : Nat)
    (hget : l.get? off = some h) (h0 : h ≠ 0)
    (hover : l.length < off + 1 + (h &&& 0x0F) + ((h &&& 0xF0) >>> 4))
    (hfuel : 2 ≤ fuel) :
    dataRunsGo fuel l off prev = .error .indexError := by
  obtain ⟨f, rfl⟩ : ∃ f, fuel = f + 2 := ⟨fuel - 2, by omega⟩
  simp only [dataRunsGo, hget, h0, if_false]
  by_cases hlo : (h &&& 0xF0) >>> 4 = 0
  · have hnone : l[off + 1 + (h &&& 0x0F)]? = none := by
      rw [List.getElem?_eq_none_iff]; omega
    simp [hlo, dataRunsGo, hnone]
  · have hnone : l[off + 1 + (h &&& 0x0F) + ((h &&& 0xF0) >>> 4)]? = none := by
      rw [List.getElem?_eq_none_iff]; omega
    simp [hlo, dataRunsGo, hnone]

/-!
## External collaborators modelled from the spec

`437.py` imports `libmft.flagsandtypes` (closed enumerations) and
`libmft.util.functions` (`convert_filetime`, `get_file_reference`).
Neither module is under `src/`; the spec treats them as external
collaborators ("pure data, not behavior") and they are modelled here from
the spec's words.
-/

/-- Modelled from the spec: `convert_filetime(u64) -> Instant` maps 64-bit
Windows FILETIME ticks (100ns since 1601-01-01 UTC) to a timezone-aware
instant.  Instants are kept abstract as their tick count, which the
conversion preserves exactly; the spec's overflow failure
(`InvalidTimestampError`) is outside every claim and is not modelled. -/
structure Instant where
  ticks : Nat
deriving DecidableEq, Repr

/-- Modelled from the spec: FILETIME conversion (`libmft.util.functions`,
not under `src/`). -/
def convert_filetime (t : Nat) : Instant := ⟨t⟩

/-- Modelled from the spec: `split_file_reference(u64)` "is pure bit-masking
(low 48 bits / high 16 bits)"; the source calls it `get_file_reference`. -/
def get_file_reference (fTag : Nat) : Nat × Nat :=
  (fTag &&& 0xFFFFFFFFFFFF, fTag >>> 48)

/-- Modelled from the spec: `AttrTypes`, the closed set of known 4-byte
attribute type codes ("unknown codes are a hard error"), with the standard
NTFS code for each name the spec lists (STANDARD_INFORMATION 0x10 ...
LOGGED_TOOL_STREAM 0x100).  `AttrTypes(code)` on any other code raises
`ValueError`. -/
def attrTypeValid (c : Nat) : Bool :=
  c ∈ [0x10, 0x20, 0x30, 0x40, 0x50, 0x60, 0x70, 0x80,
       0x90, 0xA0, 0xB0, 0xC0, 0xD0, 0xE0, 0x100]

/-- Modelled from the spec: `ACEType`, the closed set of 1-byte Windows ACE
type codes consumed by the ACE dispatch.  The standard set is codes 0..0x13
(ACCESS_ALLOWED=0, ACCESS_DENIED=1, SYSTEM_AUDIT=2, SYSTEM_ALARM=3,
ACCESS_ALLOWED_COMPOUND=4, ACCESS_ALLOWED_OBJECT=5, ACCESS_DENIED_OBJECT=6,
SYSTEM_AUDIT_OBJECT=7, SYSTEM_ALARM_OBJECT=8, ACCESS_ALLOWED_CALLBACK=9,
ACCESS_DENIED_CALLBACK=0xA, ACCESS_ALLOWED_CALLBACK_OBJECT=0xB,
ACCESS_DENIED_CALLBACK_OBJECT=0xC, SYSTEM_AUDIT_CALLBACK=0xD,
SYSTEM_ALARM_CALLBACK=0xE, SYSTEM_AUDIT_CALLBACK_OBJECT=0xF,
SYSTEM_ALARM_CALLBACK_OBJECT=0x10, SYSTEM_MANDATORY_LABEL=0x11,
SYSTEM_RESOURCE_ATTRIBUTE=0x12, SYSTEM_SCOPED_POLICY_ID=0x13).
`ACEType(code)` on any other code raises `ValueError`. -/
def aceTypeValid (c : Nat) : Bool := c ≤ 0x13

/-- Modelled from the spec: the ACE dispatch in `_from_binary_ace` tests
`"OBJECT" in header.type.name`; these are the codes whose standard name
contains "OBJECT". -/
def aceTypeNameHasOBJECT (c : Nat) : Bool :=
  c ∈ [0x5, 0x6, 0x7, 0x8, 0xB, 0xC, 0xF, 0x10]

/-- Modelled from the spec: the codes whose standard name contains
"COMPOUND" (only ACCESS_ALLOWED_COMPOUND). -/
def aceTypeNameHasCOMPOUND (c : Nat) : Bool := c = 0x4

/-- Embeds `bytes.decode("utf_16_le")`: pairs of bytes form little-endian code
units; a high surrogate must be followed by a low surrogate; a lone
surrogate or an odd trailing byte raises `UnicodeDecodeError`.  The decoded
Python `str` is modelled as its sequence of code points. -/
def utf16leDecode : ByteBuf → Except PyError (List Nat)
  | [] => .ok []
  | [_] => .error .unicodeDecodeError
  | b0 :: b1 :: rest =>
    let u := b0 + 256 * b1
    if 0xD800 ≤ u ∧ u ≤ 0xDBFF then
      match rest with
      | b2 :: b3 :: rest2 =>
        let v := b2 + 256 * b3
        if 0xDC00 ≤ v ∧ v ≤ 0xDFFF then
          match utf16leDecode rest2 with
          | .ok tail => .ok ((0x10000 + (u - 0xD800) * 0x400 + (v - 0xDC00)) :: tail)
          | .error e => .error e
        else .error .unicodeDecodeError
      | _ => .error .unicodeDecodeError
    else if 0xDC00 ≤ u ∧ u ≤ 0xDFFF then .error .unicodeDecodeError
    else
      match utf16leDecode rest with
      | .ok tail => .ok (u :: tail)
      | .error e => .error e

/-!
## Timestamps and StandardInformation (`437.py` lines 675-837)
-/

/-- The `Timestamps` content record (dynamically generated class with fields
`created, changed, mft_changed, accessed`). -/
structure Timestamps where
  created : Instant
  changed : Instant
  mft_changed : Instant
  accessed : Instant
deriving DecidableEq, Repr

/-- Embeds `Timestamps.create_from_binary` (`_from_binary_ts`, `437.py:678-693`):
requires the buffer to be exactly the 32-byte `<4Q` layout, else raises
`ContentError`. -/
def timestampsFromBinary (s : ByteBuf) : Except PyError Timestamps :=
  if s.length ≠ 32 then .error .contentError
  else .ok ⟨convert_filetime (leField s 0 8), convert_filetime (leField s 8 8),
            convert_filetime (leField s 16 8), convert_filetime (leField s 24 8)⟩

/-- The `StandardInformation` content record: nine fields, the four
NTFS-3.0+-only ones optional (`None` in the source when the buffer has the
pre-v3 size; `none` here). -/
structure StandardInformation where
  timestamps : Timestamps
  flags : Nat
  max_n_versions : Nat
  version_number : Nat
  class_id : Nat
  owner_id : Option Nat
  security_id : Option Nat
  quota_charged : Option Nat
  usn : Option Nat
deriving DecidableEq, Repr

/-- Embeds `StandardInformation.create_from_binary` (`_from_binary_stdinfo`,
`437.py:756-792`): if the buffer length equals the v3 `<4Q4I2I2Q` size (72)
all nine fields are unpacked; otherwise the pre-v3 `<4Q4I` struct (48
bytes) is unpacked over the whole buffer — `struct.error` unless the length
is exactly 48 — and the four v3-only fields are set to `None`.
`FileInfoFlags` is an opaque flag enumeration (external collaborator) and
is kept as the raw integer. -/
def stdInfoFromBinary (s : ByteBuf) : Except PyError StandardInformation :=
  if s.length = 72 then
    .ok { timestamps := ⟨convert_filetime (leField s 0 8), convert_filetime (leField s 8 8),
                         convert_filetime (leField s 16 8), convert_filetime (leField s 24 8)⟩
          flags := leField s 32 4
          max_n_versions := leField s 36 4
          version_number := leField s 40 4
          class_id := leField s 44 4
          owner_id := some (leField s 48 4)
          security_id := some (leField s 52 4)
          quota_charged := some (leField s 56 8)
          usn := some (leField s 64 8) }
  else if s.length = 48 then
    .ok { timestamps := ⟨convert_filetime (leField s 0 8), convert_filetime (leField s 8 8),
                         convert_filetime (leField s 16 8), convert_filetime (leField s 24 8)⟩
          flags := leField s 32 4
          max_n_versions := leField s 36 4
          version_number := leField s 40 4
          class_id := leField s 44 4
          owner_id := none
          security_id := none
          quota_charged := none
          usn := none }
  else .error .structError

/-!
## AttributeList (`437.py` lines 842-962)

An ATTRIBUTE_LIST is a sequence of self-sized entries.  Each entry is the
26-byte `<IH2B2QH` struct (attr type 4, entry length 2, name length 1,
name offset 1, start VCN 8, file reference 8, attribute id 2) followed by
an optional UTF-16-LE name located by the name offset/length.  The list
loop decodes an entry at the running offset, advances by the entry's
*declared* length, and stops once the offset reaches the end of the
buffer; there is no check that the declared length actually fits.
-/

/-- The `AttributeListEntry` content record.  The constructor order in the
source (`437.py:861`) drops `name_len` and stores `name_off` in the
`name_offset` slot. -/
structure AttributeListEntry where
  attr_type : Nat
  entry_len : Nat
  name_offset : Nat
  start_vcn : Nat
  file_ref : Nat
  file_seq : Nat
  attr_id : Nat
  name : Option (List Nat)
deriving DecidableEq, Repr

/-- Embeds `AttributeListEntry.create_from_binary` (`_from_binary_attrlist_e`,
`437.py:842-865`): unpack the 26-byte header from `binary_stream[:26]`
(`struct.error` if fewer bytes), decode the name if `name_len` is nonzero
(the slice is relative to the entry start and clamps at the buffer end),
split the file reference, and build the record — `AttrTypes(attr_type)`
(evaluated when the constructor tuple is built, i.e. after the name
decode) raises `ValueError` on an unknown code. -/
def attrListEntryFromBinary (s : ByteBuf) : Except PyError AttributeListEntry :=
  if s.length < 26 then .error .structError
  else
    let attrType := leField s 0 4
    let entryLen := leField s 4 2
    let nameLen := leField s 6 1
    let nameOff := leField s 7 1
    let startVcn := leField s 8 8
    let fTag := leField s 16 8
    let attrId := leField s 24 2
    let nameRes : Except PyError (Option (List Nat)) :=
      if nameLen = 0 then .ok none
      else (utf16leDecode (sliceList s nameOff (nameOff + 2 * nameLen))).map some
    match nameRes with
    | .error e => .error e
    | .ok name =>
      if attrTypeValid attrType then
        .ok { attr_type := attrType, entry_len := entryLen, name_offset := nameOff,
              start_vcn := startVcn, file_ref := (get_file_reference fTag).1,
              file_seq := (get_file_reference fTag).2, attr_id := attrId, name := name }
      else .error .valueError

/-- The `AttributeList` content record (single generated field
`_attr_list`). -/
structure AttributeList where
  attr_list : List AttributeListEntry
deriving DecidableEq, Repr

/-- The entry loop of `_from_binary_attrlist` (`437.py:914-928`):
`while True: entry = decode(stream[offset:]); offset += len(entry);
append; if offset >= len(stream): break`.  An entry with declared length 0
makes the Python loop spin forever; that divergence is modelled by the
distinct `nonTermination` outcome (fuel `s.length + 2` is never exhausted
when every declared length is positive). -/
def attrListGo : Nat → ByteBuf → Nat → Except PyError (List AttributeListEntry)
  | 0, _, _ => .error .nonTermination
  | fuel + 1, s, offset =>
    match attrListEntryFromBinary (s.drop offset) with
    | .error e => .error e
    | .ok entry =>
      let offset2 := offset + entry.entry_len
      if s.length ≤ offset2 then .ok [entry]
      else
        match attrListGo fuel s offset2 with
        | .ok rest => .ok (entry :: rest)
        | .error e => .error e

/-- Embeds `AttributeList.create_from_binary` (`_from_binary_attrlist`,
`437.py:914-928`). -/
def attrListFromBinary (s : ByteBuf) : Except PyError AttributeList :=
  (attrListGo (s.length + 2) s 0).map AttributeList.mk

/-!
## SID / ACE / ACL (`437.py` lines 1909-2246)
-/

/-- The `SID` content record (generated fields `revision_number`,
`authority`, `sub_authorities`). -/
structure SID where
  revision_number : Nat
  authority : Nat
  sub_authorities : List Nat
deriving DecidableEq, Repr

/-- Embeds `SID.create_from_binary` (`_from_binary_sid`, `437.py:1958-1976`):
unpack the 8-byte `<2B6s` header from `binary_stream[:8]` (revision,
sub-authority count, 6 authority bytes interpreted big-endian), then — if
the count is nonzero — unpack `count` 32-bit little-endian sub-authorities
from `binary_stream[8 : 8 + 4*count]` (`struct.error` when the slice is
shorter than the format). -/
def sidFromBinary (s : ByteBuf) : Except PyError SID :=
  if s.length < 8 then .error .structError
  else
    let subCount := leField s 1 1
    if s.length < 8 + 4 * subCount then .error .structError
    else
      .ok { revision_number := leField s 0 1
            authority := beBytesToNat (sliceList s 2 8)
            sub_authorities := (List.range subCount).map fun i => leField s (8 + 4 * i) 4 }

/-- Embeds `SID.__str__` (`_str_sid`, `437.py:1982-1985`):
`f'S-{revision}-{authority}-{"-".join(sub_authorities)}'`. -/
def sidToString (sid : SID) : String :=
  "S-" ++ toString sid.revision_number ++ "-" ++ toString sid.authority ++ "-"
    ++ String.intercalate "-" (sid.sub_authorities.map toString)

/-- The `ACEHeader` content record (`type`, `control_flags`, `ace_size`).
`ACEControlFlags` is an opaque flag enumeration and is kept as the raw
integer. -/
structure ACEHeader where
  type : Nat
  control_flags : Nat
  ace_size : Nat
deriving DecidableEq, Repr

/-- Embeds `ACEHeader.create_from_binary` (`_from_binary_ace_header`,
`437.py:1909-1920`): `<2BH` unpacked over the whole (already sliced)
buffer — `struct.error` unless it is exactly 4 bytes — then
`ACEType(type)` raises `ValueError` on an unknown code. -/
def aceHeaderFromBinary (s : ByteBuf) : Except PyError ACEHeader :=
  if s.length ≠ 4 then .error .structError
  else
    let t := leField s 0 1
    if aceTypeValid t then
      .ok { type := t, control_flags := leField s 1 1, ace_size := leField s 2 2 }
    else .error .valueError

/-- The `BasicACE` content record (`access_rights_flags`, `SID`).
`ACEAccessFlags` is an opaque flag enumeration kept as the raw integer. -/
structure BasicACE where
  access_rights_flags : Nat
  sid : SID
deriving DecidableEq, Repr

/-- Embeds `BasicACE.create_from_binary` (`_from_binary_b_ace`, `437.py:2023-2033`
with `cls = BasicACE`): unpack the 4-byte `<I` access-rights field from
`binary_stream[:4]`, then decode the SID from `binary_stream[4:]`. -/
def basicAceFromBinary (s : ByteBuf) : Except PyError BasicACE :=
  if s.length < 4 then .error .structError
  else
    match sidFromBinary (s.drop 4) with
    | .error e => .error e
    | .ok sid => .ok { access_rights_flags := leField s 0 4, sid := sid }

/-- The `ObjectACE` content record: five generated fields
(`access_rights_flags`, `flags`, `object_guid`, `inherited_guid`, `sid`).
GUIDs are `UUID(bytes_le=...)` values, kept as their 128-bit integer. -/
structure ObjectACE where
  access_rights_flags : Nat
  flags : Nat
  object_guid : Nat
  inherited_guid : Nat
  sid : SID
deriving DecidableEq, Repr

/-- Embeds `UUID(bytes_le=b)` for a 16-byte string: the first three fields are
byte-swapped to big-endian and the 128-bit integer is read big-endian. -/
def uuidOfBytesLE (b : ByteBuf) : Nat :=
  beBytesToNat ((sliceList b 0 4).reverse ++ (sliceList b 4 6).reverse
    ++ (sliceList b 6 8).reverse ++ sliceList b 8 16)

/-- Embeds `ObjectACE.create_from_binary` as the source actually binds it:
`_obj_ace_namespace` (`437.py:2117-2119`) maps `create_from_binary` to
`_from_binary_b_ace` — the *BasicACE* decoder — not to
`_from_binary_obj_ace`.  Run with `cls = ObjectACE` it unpacks
`ObjectACE._REPR = "<2I16s16s"` (40 bytes) from `binary_stream[:40]`,
keeps only element 0 of the tuple, decodes the SID from
`binary_stream[40:]`, and then calls `ObjectACE.__init__` with a 2-tuple —
which the generated `__init__` unpacks into five slots, raising
`ValueError: not enough values to unpack (expected 5, got 2)`.  The
decoder therefore never succeeds. -/
def objectAceFromBinary (s : ByteBuf) : Except PyError ObjectACE :=
  if s.length < 40 then .error .structError
  else
    match sidFromBinary (s.drop 40) with
    | .error e => .error e
    | .ok _ => .error .valueError

/-- Embeds `_from_binary_obj_ace` (`437.py:2071-2085`): the ObjectACE decoder the
module defines but never binds (dead code): access-rights flags (4),
flags (4), two 16-byte `bytes_le` GUIDs, then the trailing SID from
offset 40. -/
def objAceIntendedFromBinary (s : ByteBuf) : Except PyError ObjectACE :=
  if s.length < 40 then .error .structError
  else
    match sidFromBinary (s.drop 40) with
    | .error e => .error e
    | .ok sid =>
      .ok { access_rights_flags := leField s 0 4, flags := leField s 4 4,
            object_guid := uuidOfBytesLE (sliceList s 8 24),
            inherited_guid := uuidOfBytesLE (sliceList s 24 40), sid := sid }

/-- The `ACE` record: a header plus at most one of the two bodies; for a
COMPOUND type header neither body is set (the generated `__init__` default
leaves both `None` and the dispatch's COMPOUND branch is `pass`). -/
structure ACE where
  header : ACEHeader
  basic_ace : Option BasicACE
  object_ace : Option ObjectACE
deriving DecidableEq, Repr

/-- Embeds `ACE.create_from_binary` (`_from_binary_ace`, `437.py:2134-2148`):
decode the header from `binary_stream[:4]`, then dispatch on the header
type's name — "OBJECT" → `ObjectACE.create_from_binary` (the misbound
always-failing decoder), "COMPOUND" → `pass` (empty-bodied ACE), anything
else → `BasicACE.create_from_binary` — each on `binary_stream[4:]`. -/
def aceFromBinary (s : ByteBuf) : Except PyError ACE :=
  match aceHeaderFromBinary (sliceList s 0 4) with
  | .error e => .error e
  | .ok header =>
    if aceTypeNameHasOBJECT header.type then
      match objectAceFromBinary (s.drop 4) with
      | .error e => .error e
      | .ok o => .ok { header := header, basic_ace := none, object_ace := some o }
    else if aceTypeNameHasCOMPOUND header.type then
      .ok { header := header, basic_ace := none, object_ace := none }
    else
      match basicAceFromBinary (s.drop 4) with
      | .error e => .error e
      | .ok b => .ok { header := header, basic_ace := some b, object_ace := none }

/-- The `ACL` content record (`revision_number`, `size`, `aces`). -/
structure ACL where
  revision_number : Nat
  size : Nat
  aces : List ACE
deriving DecidableEq, Repr

/-- The ACE loop of `_from_binary_acl` (`437.py:2203-2206`):
`for i in range(ace_len)` — exactly `count` iterations, each decoding an
ACE at the running offset and advancing by `len(ace) = header.ace_size`,
with no check against the remaining buffer length. -/
def aclGo : Nat → ByteBuf → Nat → Except PyError (List ACE)
  | 0, _, _ => .ok []
  | n + 1, s, offset =>
    match aceFromBinary (s.drop offset) with
    | .error e => .error e
    | .ok ace =>
      match aclGo n s (offset + ace.header.ace_size) with
      | .ok rest => .ok (ace :: rest)
      | .error e => .error e

/-- Embeds `ACL.create_from_binary` (`_from_binary_acl`, `437.py:2190-2212`):
unpack the 8-byte `<B1x2H2x` header from `binary_stream[:8]` (revision,
size, ACE count), then decode exactly `ace_count` ACEs starting at
offset 8. -/
def aclFromBinary (s : ByteBuf) : Except PyError ACL :=
  if s.length < 8 then .error .structError
  else
    match aclGo (leField s 4 2) s 8 with
    | .error e => .error e
    | .ok aces =>
      .ok { revision_number := leField s 0 1, size := leField s 2 2, aces := aces }

/-!
## BaseAttributeHeader (`437.py` lines 329-418)
-/

/-- The `BaseAttributeHeader` record (slots `attr_type_id`, `attr_len`,
`non_resident`, `flags`, `attr_id`, `attr_name`).  `AttrFlags` is an
opaque flag enumeration kept as the raw integer. -/
structure BaseAttributeHeader where
  attr_type_id : Nat
  attr_len : Nat
  non_resident : Bool
  flags : Nat
  attr_id : Nat
  attr_name : Option (List Nat)
deriving DecidableEq, Repr

/-- Embeds `BaseAttributeHeader.create_from_binary` (`437.py:379-401`): unpack the
16-byte `<2I2B3H` prefix from `binary_view[:16]` (`struct.error` if
fewer), decode the UTF-16-LE name at `name_offset` when `name_len > 0`,
then build the record (`AttrTypes(attr_type)` raising `ValueError` on an
unknown code). -/
def baseAttrHeaderFromBinary (s : ByteBuf) : Except PyError BaseAttributeHeader :=
  if s.length < 16 then .error .structError
  else
    let attrType := leField s 0 4
    let nameLen := leField s 9 1
    let nameOff := leField s 10 2
    let nameRes : Except PyError (Option (List Nat)) :=
      if nameLen = 0 then .ok none
      else (utf16leDecode (sliceList s nameOff (nameOff + 2 * nameLen))).map some
    match nameRes with
    | .error e => .error e
    | .ok name =>
      if attrTypeValid attrType then
        .ok { attr_type_id := attrType, attr_len := leField s 4 4,
              non_resident := leField s 8 1 ≠ 0, flags := leField s 12 2,
              attr_id := leField s 14 2, attr_name := name }
      else .error .valueError

/-!
## Python `==` on the decoded records

`_create_attrcontent_class` (`437.py:80-210`) generates an `__eq__` for
every content class as the source string
`return <field comparisons> if isinstance(other, <ClassName>) else False`
(`437.py:155-156`) and execs it through `create_func_from_str`
(`437.py:116-143`) with `exec_namespace = {"__name__": f_name}`.  The
exec'd function's globals therefore never bind the class name.  At call
time the conditional expression evaluates `isinstance(other, <ClassName>)`
first, the class-name lookup fails in locals, globals and builtins, and
`NameError` is raised before any field is compared.  So `==` between
instances of any generated content class always raises `NameError`; the
field-wise comparison in the generated body is dead code, and the
functions below model each generated `__eq__` accordingly.

`DataRuns` (`437.py:246-327`) and the attribute-header classes
(`437.py:329-603`) are *hand-written* and define `__init__`, `__len__`,
`__iter__`, `__getitem__`, `__repr__` — but no `__eq__`.  Python therefore
falls back to `object.__eq__`, which is identity: two distinct objects
compare unequal no matter their contents.  Such an object is modelled as
its observed contents plus the allocation identity `objId` of the `cls()`
call that created it, and `==` compares only the identities.
-/

/-- Embeds the exec'd `Timestamps.__eq__`: the `isinstance` class-name
lookup raises `NameError` before any field comparison. -/
def pyEqTimestamps (_ _ : Timestamps) : Except PyError Bool := .error .nameError

/-- Embeds the exec'd `StandardInformation.__eq__`: raises `NameError`. -/
def pyEqStdInfo (_ _ : StandardInformation) : Except PyError Bool := .error .nameError

/-- Embeds the exec'd `AttributeListEntry.__eq__`: raises `NameError`. -/
def pyEqAttrListEntry (_ _ : AttributeListEntry) : Except PyError Bool := .error .nameError

/-- Embeds the exec'd `AttributeList.__eq__`: raises `NameError`. -/
def pyEqAttrList (_ _ : AttributeList) : Except PyError Bool := .error .nameError

/-- Embeds the exec'd `SID.__eq__`: raises `NameError`. -/
def pyEqSID (_ _ : SID) : Except PyError Bool := .error .nameError

/-- Embeds the exec'd `ACEHeader.__eq__`: raises `NameError`. -/
def pyEqACEHeader (_ _ : ACEHeader) : Except PyError Bool := .error .nameError

/-- Embeds the exec'd `BasicACE.__eq__`: raises `NameError`. -/
def pyEqBasicACE (_ _ : BasicACE) : Except PyError Bool := .error .nameError

/-- Embeds the exec'd `ObjectACE.__eq__`: raises `NameError`. -/
def pyEqObjectACE (_ _ : ObjectACE) : Except PyError Bool := .error .nameError

/-- Embeds the exec'd `ACE.__eq__`: raises `NameError`. -/
def pyEqACE (_ _ : ACE) : Except PyError Bool := .error .nameError

/-- Embeds the exec'd `ACL.__eq__`: raises `NameError`. -/
def pyEqACL (_ _ : ACL) : Except PyError Bool := .error .nameError

/-- A `DataRuns` instance: its allocation identity plus the contents its
`data_runs` attribute shows at the moment considered.  Every instance
created by `create_from_binary` aliases the one shared default list, so
`data_runs` here is a snapshot of that list, not owned data. -/
structure DataRunsObj where
  data_runs : List DataRun
  objId : Nat
deriving DecidableEq, Repr

/-- One call of `DataRuns.create_from_binary` on buffer `l` with the shared
default list holding `st` at call time, producing the object with fresh
allocation identity `objId`: right after the call the object's (shared)
`data_runs` shows `st` followed by the runs parsed from `l`. -/
def dataRunsObjNew (objId : Nat) (st : List DataRun) (l : ByteBuf) : Except PyError DataRunsObj :=
  (dataRunsCreateFromBinary l).map fun rs => { data_runs := st ++ rs, objId := objId }

/-- Python `==` on two `DataRuns` objects: the class defines no `__eq__`,
so `object.__eq__` (identity) decides. -/
def pyEqDataRuns (a b : DataRunsObj) : Bool := a.objId == b.objId

/-- A `BaseAttributeHeader` instance plus its allocation identity; the
header classes likewise define no `__eq__`.  (Their `__init__` default is
an immutable tuple, so no shared-state caveat applies.) -/
structure BaseAttrHeaderObj where
  header : BaseAttributeHeader
  objId : Nat
deriving DecidableEq, Repr

/-- One call of `BaseAttributeHeader.create_from_binary` producing the
object with allocation identity `objId`. -/
def baseAttrHeaderObjNew (objId : Nat) (s : ByteBuf) : Except PyError BaseAttrHeaderObj :=
  (baseAttrHeaderFromBinary s).map fun h => { header := h, objId := objId }

/-- Python `==` on two `BaseAttributeHeader` objects: identity. -/
def pyEqBaseAttrHeader (a b : BaseAttrHeaderObj) : Bool := a.objId == b.objId

/-!
## Claim theorems
-/

/-- Runs parsed by the loop become the shared list's new suffix: one call
of `DataRuns.create_from_binary` with shared-list contents `st` that parses
`rs` returns the grown list `st ++ rs` (which the object aliases). -/
theorem dataRunsGoSt_ok (fuel : Nat) (l : ByteBuf) :
    ∀ offset prev acc rs, dataRunsGo fuel l offset prev = .ok rs →
      dataRunsGoSt fuel l offset prev acc = (acc ++ rs, none) := by
  induction fuel with
  | zero =>
    intro offset prev acc rs h
    exact absurd h (by simp [dataRunsGo])
  | succ fuel ih =>
    intro offset prev acc rs h
    cases hget : l[offset]? with
    | none => simp [dataRunsGo, hget] at h
    | some header =>
      simp only [dataRunsGo, List.get?_eq_getElem?, hget] at h
      simp only [dataRunsGoSt, List.get?_eq_getElem?, hget]
      by_cases h0 : header = 0
      · simp only [h0, if_true] at h ⊢
        obtain rfl : ([] : List DataRun) = rs := by simpa using h
        simp
      · simp only [h0, if_false] at h ⊢
        by_cases hlo : (header &&& 0xF0) >>> 4 = 0
        · simp only [hlo, if_true, Nat.add_zero] at h ⊢
          cases hrec : dataRunsGo fuel l (offset + 1 + (header &&& 0x0F)) prev with
          | error e => simp [hrec] at h
          | ok rest =>
            simp only [hrec, Except.ok.injEq] at h
            subst h
            rw [ih _ _ _ _ hrec]
            simp
        · simp only [hlo, if_false] at h ⊢
          cases hrec : dataRunsGo fuel l (offset + 1 + (header &&& 0x0F) + ((header &&& 0xF0) >>> 4))
              (leBytesToInt (sliceList l (offset + 1 + (header &&& 0x0F))
                (offset + 1 + (header &&& 0x0F) + ((header &&& 0xF0) >>> 4))) + prev) with
          | error e => simp [hrec] at h
          | ok rest =>
            simp only [hrec, Except.ok.injEq] at h
            subst h
            rw [ih _ _ _ _ hrec]
            simp

/-- C1 counterexample: `DataRuns.__init__`'s mutable default
(`data_runs=[]`, `437.py:271`) is one list object shared by every `cls()`
call, so after the claim's first decode has run in the process, decoding
`[0x01, 0x04, 0x00]` returns an object whose `data_runs` is
`[(4, 100), (4, None)]` — two runs, not exactly one sparse run. -/
theorem c1_dataruns_shared_default_cex :
    dataRunsCreateWithState [] [0x11, 0x04, 0x64, 0x00] = ([(4, some 100)], none)
      ∧ dataRunsCreateWithState [(4, some 100)] [0x01, 0x04, 0x00]
          = ([(4, some 100), (4, none)], none)
      ∧ ([(4, some 100), (4, none)] : List DataRun) ≠ [(4, none)] :=
  ⟨rfl, rfl, by decide⟩

/-- C1 amended: with the shared default list empty (the process's first
call), `[0x11, 0x04, 0x64]` plus the terminator yields exactly one run
(length 4, absolute offset 100); a subsequent call on `[0x01, 0x04, 0x00]`
parses exactly one sparse run (4, None) but appends it to the same shared
list and returns `[(4, 100), (4, None)]`; in general a call that raises no
exception returns the shared contents `st` followed by the runs parsed
from its own buffer. -/
theorem c1_dataruns_decodes_with_shared_state :
    dataRunsCreateWithState [] [0x11, 0x04, 0x64, 0x00] = ([(4, some 100)], none)
    ∧ dataRunsCreateWithState [(4, some 100)] [0x01, 0x04, 0x00]
        = ([(4, some 100), (4, none)], none)
    ∧ dataRunsCreateFromBinary [0x01, 0x04, 0x00] = .ok [(4, none)]
    ∧ (∀ st l rs, dataRunsCreateFromBinary l = .ok rs →
        dataRunsCreateWithState st l = (st ++ rs, none)) :=
  ⟨rfl, rfl, rfl, fun st l rs h => dataRunsGoSt_ok (l.length + 2) l 0 0 st rs h⟩

/-- Witness for C1's amended theorem: the shared-state law applied at a
concrete non-empty shared list and buffer. -/
theorem c1_dataruns_decodes_with_shared_state_witness :
    dataRunsCreateWithState [(7, none)] [0x21, 0x06, 0x40, 0x00, 0x00]
      = ([(7, none), (6, some 64)], none) :=
  c1_dataruns_decodes_with_shared_state.2.2.2 [(7, none)]
    [0x21, 0x06, 0x40, 0x00, 0x00] [(6, some 64)] rfl

/-- C10 counterexample: the claimed accumulation fails over a returned run
list once the shared default list is non-empty.  A first call leaves
(1, abs 50) in the shared list; a second call's run with relative offset
10 restarts `previous_dr_offset` at 0 and is appended as (2, abs 10) —
but in the returned list `[(1, 50), (2, 10)]` the most recent preceding
non-sparse run has absolute offset 50, so the claimed law would demand
10 + 50 = 60: the returned list differs from `accumRuns 0` applied to its
runs' actual relative offsets. -/
theorem c10_stale_state_breaks_accumulation :
    dataRunsCreateWithState [] [0x11, 0x01, 0x32, 0x00] = ([(1, some 50)], none)
    ∧ dataRunsCreateWithState [(1, some 50)] [0x11, 0x02, 0x0A, 0x00]
        = ([(1, some 50), (2, some 10)], none)
    ∧ dataRunsRawGo 6 [0x11, 0x01, 0x32, 0x00] 0 = .ok [(1, some 50)]
    ∧ dataRunsRawGo 6 [0x11, 0x02, 0x0A, 0x00] 0 = .ok [(2, some 10)]
    ∧ accumRuns 0 ([(1, some 50)] ++ [(2, some 10)]) ≠ [(1, some 50), (2, some 10)] :=
  ⟨rfl, rfl, rfl, rfl, by decide⟩

/-- C10 amended: the accumulation law holds for the runs parsed by a
single call — the per-call parse equals the raw relative-offset parse
followed by `accumRuns 0`: each non-sparse run's absolute offset is its
signed relative offset plus the absolute offset of the most recent
preceding non-sparse run *of the same call* (0 when none precedes), with
sparse runs recorded as `none` and skipped.  But the returned object's
`data_runs` is the shared default list — the stale runs of earlier calls
followed by this call's runs — and `previous_dr_offset` restarts at 0
each call, so the law does not extend across the stale prefix. -/
theorem c10_dataruns_accumulation_per_call :
    (∀ l, dataRunsCreateFromBinary l = (dataRunsRawGo (l.length + 2) l 0).map (accumRuns 0))
    ∧ (∀ st l rs, dataRunsCreateFromBinary l = .ok rs →
        dataRunsCreateWithState st l = (st ++ rs, none)) :=
  ⟨fun l => dataRunsGo_eq_accum_raw (l.length + 2) l 0 0,
   fun st l rs h => dataRunsGoSt_ok (l.length + 2) l 0 0 st rs h⟩

/-- Witness for C10's amended theorem at concrete inputs: the per-call law
at a one-run buffer, and the shared-state law at a non-empty stale list. -/
theorem c10_dataruns_accumulation_per_call_witness :
    dataRunsCreateFromBinary [0x00]
        = (dataRunsRawGo 3 [0x00] 0).map (accumRuns 0)
      ∧ dataRunsCreateWithState [(2, some 8)] [0x01, 0x03, 0x00]
          = ([(2, some 8), (3, none)], none) :=
  ⟨c10_dataruns_accumulation_per_call.1 [0x00],
   c10_dataruns_accumulation_per_call.2 [(2, some 8)] [0x01, 0x03, 0x00] [(3, none)] rfl⟩

/-- A minimal well-formed OBJECT-type ACE: header type 5
(ACCESS_ALLOWED_OBJECT), size 56, then access flags, object flags, two
16-byte GUIDs and a valid 12-byte SID. -/
def c4ObjAceBuf : ByteBuf :=
  [0x5, 0, 56, 0] ++ [1, 0, 0, 0] ++ [0, 0, 0, 0]
    ++ [0, 1, 2, 3, 4, 5, 6, 7, 8, 9, 10, 11, 12, 13, 14, 15]
    ++ [15, 14, 13, 12, 11, 10, 9, 8, 7, 6, 5, 4, 3, 2, 1, 0]
    ++ [1, 1, 0, 0, 0, 0, 0, 5, 99, 0, 0, 0]

/-- C4: decoding an ACE whose header type is an OBJECT type never yields
an ObjectACE body — `_obj_ace_namespace` (`437.py:2117-2119`) binds
`create_from_binary` to `_from_binary_b_ace`, the BasicACE decoder, which
hands `ObjectACE.__init__` a 2-tuple for its five slots, so the decode
raises `ValueError` on every well-formed OBJECT ACE.  The dead
`_from_binary_obj_ace` (`437.py:2071-2085`) would have succeeded on the
same bytes. -/
theorem c4_object_ace_decoder_misbound :
    aceFromBinary c4ObjAceBuf = .error .valueError
      ∧ (objAceIntendedFromBinary (c4ObjAceBuf.drop 4)).isOk = true :=
  ⟨rfl, rfl⟩

/-- A COMPOUND-type ACE buffer: header type 4 (ACCESS_ALLOWED_COMPOUND),
size 8, followed by body bytes the dispatch never looks at. -/
def c5CompoundBuf : ByteBuf := [0x4, 0, 8, 0, 0xDE, 0xAD, 0xBE, 0xEF]

/-- C5 counterexample: decoding a COMPOUND-type ACE *succeeds* and returns
an ACE whose `basic_ace` and `object_ace` are both `None` — the dispatch's
COMPOUND branch is `pass` (`437.py:2143-2144`) — contradicting the claim
that callers get a distinct unsupported-variant error, never a silently
empty-bodied ACE. -/
theorem c5_compound_ace_silent_success :
    aceFromBinary c5CompoundBuf =
      .ok { header := { type := 4, control_flags := 0, ace_size := 8 },
            basic_ace := none, object_ace := none } :=
  rfl

/-- C5 amended: whenever the 4-byte ACE header decodes to a COMPOUND type,
`ACE.create_from_binary` succeeds and returns the empty-bodied ACE — the
header with `basic_ace = None` and `object_ace = None`; no error or
distinct unsupported-variant outcome is produced. -/
theorem c5_compound_ace_empty_body (s : ByteBuf) (hdr : ACEHeader)
    (hhdr : aceHeaderFromBinary (sliceList s 0 4) = .ok hdr)
    (hcomp : aceTypeNameHasCOMPOUND hdr.type = true) :
    aceFromBinary s = .ok { header := hdr, basic_ace := none, object_ace := none } := by
  have ht : hdr.type = 4 := by
    simpa [aceTypeNameHasCOMPOUND] using hcomp
  simp [aceFromBinary, hhdr, aceTypeNameHasOBJECT, aceTypeNameHasCOMPOUND, ht]

/-- Witness for C5's amended theorem at a concrete COMPOUND ACE. -/
theorem c5_compound_ace_empty_body_witness :
    aceFromBinary [0x4, 0, 16, 0] =
      .ok { header := { type := 4, control_flags := 0, ace_size := 16 },
            basic_ace := none, object_ace := none } :=
  c5_compound_ace_empty_body [0x4, 0, 16, 0]
    { type := 4, control_flags := 0, ace_size := 16 } rfl rfl

/-- C7 counterexample: a run header declaring fields past the end of the
buffer (`0x11` wants one length byte and one offset byte but only one byte
follows) makes `DataRuns.create_from_binary` fail with an uncaught
`IndexError` — not with any `MalformedRunListError`, which the module
neither defines nor imports (`437.py:45` imports only `HeaderError` and
`ContentError`); the short field reads themselves are silently truncated
slices. -/
theorem c7_overrun_is_index_error :
    dataRunsCreateFromBinary [0x11, 0x04] = .error .indexError :=
  rfl

/-- C7 amended: whenever a non-terminator run header (at any offset of the
walk, and in particular at the start) declares length/offset fields
extending past the end of the buffer, the length/offset reads are silently
truncated slices and the decode fails with an uncaught `IndexError` at the
next header probe — there is no `MalformedRunListError` in the code. -/
theorem c7_overrun_fails_unclassified :
    (∀ fuel l off prev h, l.get? off = some h → h ≠ 0 →
      l.length < off + 1 + (h &&& 0x0F) + ((h &&& 0xF0) >>> 4) → 2 ≤ fuel →
      dataRunsGo fuel l off prev = .error .indexError)
    ∧ (∀ l h, l.get? 0 = some h → h ≠ 0 →
      l.length < 1 + (h &&& 0x0F) + ((h &&& 0xF0) >>> 4) →
      dataRunsCreateFromBinary l = .error .indexError) := by
  refine ⟨fun fuel l off prev h hg h0 hov hf => dataRunsGo_overrun fuel l off prev h hg h0 hov hf,
          fun l h hg h0 hov => ?_⟩
  have hlen : 1 ≤ l.length := by
    rcases l with _ | ⟨a, t⟩
    · simp [List.get?] at hg
    · simp
  exact dataRunsGo_overrun (l.length + 2) l 0 0 h hg h0 (by omega) (by omega)

/-- Witness for C7's amended theorem: header `0x31` asks for one length
byte and three offset bytes with only one byte available. -/
theorem c7_overrun_fails_unclassified_witness :
    dataRunsCreateFromBinary [0x31, 0xFF] = .error .indexError :=
  c7_overrun_fails_unclassified.2 [0x31, 0xFF] 0x31 rfl (by decide) (by decide)

/-- C2: `StandardInformation.create_from_binary` on a 48-byte (pre-v3)
buffer leaves `owner_id`, `security_id`, `quota_charged` and `usn` absent
(`none`, distinguishable from `some 0`) while populating the pre-v3 fields
from the buffer; on a 72-byte (v3) buffer all nine fields are populated
from the buffer, the four v3-only ones as `some` of the decoded values. -/
theorem c2_stdinfo_dual_shape :
    (∀ s r, s.length = 48 → stdInfoFromBinary s = .ok r →
      r.owner_id = none ∧ r.security_id = none ∧ r.quota_charged = none ∧ r.usn = none
        ∧ r.timestamps = ⟨convert_filetime (leField s 0 8), convert_filetime (leField s 8 8),
                          convert_filetime (leField s 16 8), convert_filetime (leField s 24 8)⟩
        ∧ r.flags = leField s 32 4 ∧ r.max_n_versions = leField s 36 4
        ∧ r.version_number = leField s 40 4 ∧ r.class_id = leField s 44 4)
    ∧ (∀ s r, s.length = 72 → stdInfoFromBinary s = .ok r →
      r.owner_id = some (leField s 48 4) ∧ r.security_id = some (leField s 52 4)
        ∧ r.quota_charged = some (leField s 56 8) ∧ r.usn = some (leField s 64 8)
        ∧ r.timestamps = ⟨convert_filetime (leField s 0 8), convert_filetime (leField s 8 8),
                          convert_filetime (leField s 16 8), convert_filetime (leField s 24 8)⟩
        ∧ r.flags = leField s 32 4 ∧ r.max_n_versions = leField s 36 4
        ∧ r.version_number = leField s 40 4 ∧ r.class_id = leField s 44 4) := by
  constructor
  · intro s r h48 hok
    have h72 : ¬ s.length = 72 := by omega
    rw [stdInfoFromBinary, if_neg h72, if_pos h48] at hok
    simp only [Except.ok.injEq] at hok
    subst hok
    exact ⟨rfl, rfl, rfl, rfl, rfl, rfl, rfl, rfl, rfl⟩
  · intro s r h72 hok
    rw [stdInfoFromBinary, if_pos h72] at hok
    simp only [Except.ok.injEq] at hok
    subst hok
    exact ⟨rfl, rfl, rfl, rfl, rfl, rfl, rfl, rfl, rfl⟩

/-- The record decoded from 48 zero bytes. -/
def c2Rec48 : StandardInformation :=
  { timestamps := ⟨⟨0⟩, ⟨0⟩, ⟨0⟩, ⟨0⟩⟩, flags := 0, max_n_versions := 0,
    version_number := 0, class_id := 0, owner_id := none, security_id := none,
    quota_charged := none, usn := none }

/-- The record decoded from 72 bytes that are all `1`. -/
def c2Rec72 : StandardInformation :=
  { timestamps := ⟨⟨72340172838076673⟩, ⟨72340172838076673⟩, ⟨72340172838076673⟩,
                   ⟨72340172838076673⟩⟩,
    flags := 16843009, max_n_versions := 16843009, version_number := 16843009,
    class_id := 16843009, owner_id := some 16843009, security_id := some 16843009,
    quota_charged := some 72340172838076673, usn := some 72340172838076673 }

/-- Witness for C2 at concrete 48- and 72-byte buffers. -/
theorem c2_stdinfo_dual_shape_witness :
    c2Rec48.owner_id = none ∧ c2Rec72.owner_id = some 16843009 :=
  ⟨(c2_stdinfo_dual_shape.1 (List.replicate 48 0) c2Rec48 (by decide) (by rfl)).1,
   (c2_stdinfo_dual_shape.2 (List.replicate 72 1) c2Rec72 (by decide) (by rfl)).1⟩

theorem aclGo_length : ∀ (n : Nat) (s : ByteBuf) (off : Nat) (aces : List ACE),
    aclGo n s off = .ok aces → aces.length = n := by
  intro n
  induction n with
  | zero =>
    intro s off aces h
    simp only [aclGo, Except.ok.injEq] at h
    simp [← h]
  | succ n ih =>
    intro s off aces h
    cases hace : aceFromBinary (s.drop off) with
    | error e => simp [aclGo, hace] at h
    | ok ace =>
      simp only [aclGo, hace] at h
      cases hrest : aclGo n s (off + ace.header.ace_size) with
      | error e => simp [hrest] at h
      | ok rest =>
        simp only [hrest] at h
        obtain rfl : ace :: rest = aces := by simpa using h
        simp [ih s _ rest hrest]

/-- ACL header declaring `ace_count = 2`, one well-formed 20-byte basic
ACE, then three garbage bytes. -/
def c3GarbageBuf : ByteBuf :=
  [2, 0, 31, 0, 2, 0, 0, 0] ++ [0, 0, 20, 0] ++ [1, 0, 0, 0]
    ++ [1, 1, 0, 0, 0, 0, 0, 5, 21, 0, 0, 0] ++ [0xFF, 0xFF, 0xAA]

/-- C3: ACL decoding is count-driven — on success the ACE list has exactly
the `ace_count` declared at bytes 4..6 of the header, with no dependence
on the remaining buffer length; and the concrete header declaring
`ace_count = 2` over one well-formed ACE plus garbage attempts the second
ACE and fails (`struct.error` unpacking its 4-byte header from the 3
remaining bytes) instead of returning a 1-element list. -/
theorem c3_acl_count_driven :
    (∀ s acl, aclFromBinary s = .ok acl → acl.aces.length = leField s 4 2)
    ∧ aclFromBinary c3GarbageBuf = .error .structError := by
  constructor
  · intro s acl h
    by_cases hlen : s.length < 8
    · simp [aclFromBinary, hlen] at h
    · simp only [aclFromBinary, hlen, if_false] at h
      cases hgo : aclGo (leField s 4 2) s 8 with
      | error e => rw [hgo] at h; exact absurd h (by simp)
      | ok aces =>
        rw [hgo] at h
        obtain rfl :
            ({ revision_number := leField s 0 1, size := leField s 2 2,
               aces := aces } : ACL) = acl := by simpa using h
        exact aclGo_length _ s 8 aces hgo
  · rfl

/-- A well-formed one-ACE ACL. -/
def c3GoodBuf : ByteBuf :=
  [2, 0, 28, 0, 1, 0, 0, 0] ++ [0, 0, 20, 0] ++ [1, 0, 0, 0]
    ++ [1, 1, 0, 0, 0, 0, 0, 5, 21, 0, 0, 0]

/-- The ACL decoded from `c3GoodBuf`. -/
def c3GoodAcl : ACL :=
  { revision_number := 2, size := 28,
    aces := [{ header := { type := 0, control_flags := 0, ace_size := 20 },
               basic_ace := some { access_rights_flags := 1,
                                   sid := { revision_number := 1, authority := 5,
                                            sub_authorities := [21] } },
               object_ace := none }] }

/-- Witness for C3's count law at a concrete one-ACE ACL. -/
theorem c3_acl_count_driven_witness : c3GoodAcl.aces.length = leField c3GoodBuf 4 2 :=
  c3_acl_count_driven.1 c3GoodBuf c3GoodAcl rfl

theorem leBytesToNat_lt_pow : ∀ (bs : ByteBuf), (∀ b ∈ bs, b < 256) →
    leBytesToNat bs < 256 ^ bs.length := by
  intro bs
  induction bs with
  | nil => intro _; simp [leBytesToNat]
  | cons a t ih =>
    intro h
    have ha : a < 256 := h a (by simp)
    have ht : leBytesToNat t < 256 ^ t.length := ih fun b hb => h b (by simp [hb])
    have : leBytesToNat (a :: t) = a + 256 * leBytesToNat t := rfl
    rw [this, List.length_cons, pow_succ, Nat.mul_comm (256 ^ t.length) 256]
    omega

theorem sliceList_subset (l : ByteBuf) (i j : Nat) : ∀ b ∈ sliceList l i j, b ∈ l :=
  fun b hb => l.take_subset j ((l.take j).drop_subset i hb)

theorem sliceList_length_le (l : ByteBuf) (off n : Nat) :
    (sliceList l off (off + n)).length ≤ n := by
  simp only [sliceList, List.length_drop, List.length_take]
  omega

/-- The 4 little-endian bytes of `n mod 2^32` (test-input construction:
the only 4-byte little-endian encoding candidates of an integer). -/
def le4 (n : Nat) : ByteBuf := [n % 256, n / 256 % 256, n / 65536 % 256, n / 16777216 % 256]

/-- The byte encoding the claim describes: revision 1, 5 sub-authorities,
6-byte big-endian authority 5, then the five listed sub-authority values
each forced into 4 little-endian bytes (7623811015 does not fit: its
4-byte truncation is 3328843719). -/
def c8SidBuf : ByteBuf :=
  [1, 5, 0, 0, 0, 0, 0, 5] ++ le4 21 ++ le4 7623811015 ++ le4 3361044348
    ++ le4 30300820 ++ le4 1013

/-- The SID decoded from `c8SidBuf`. -/
def c8Sid : SID :=
  { revision_number := 1, authority := 5,
    sub_authorities := [21, 3328843719, 3361044348, 30300820, 1013] }

/-- C8 counterexample: the claimed input bytes decode to a SID whose
string form is not `S-1-5-21-7623811015-3361044348-30300820-1013` — the
sub-authority 7623811015 exceeds 2^32 and cannot survive a 4-byte
little-endian field, so its low 32 bits 3328843719 appear instead. -/
theorem c8_sid_claimed_string_unreachable :
    sidFromBinary c8SidBuf = .ok c8Sid
      ∧ sidToString c8Sid ≠ "S-1-5-21-7623811015-3361044348-30300820-1013" :=
  ⟨by rfl, by decide⟩

/-- C8 amended: every sub-authority decoded from real bytes is < 2^32 (so
the value 7623811015 can never appear in a decoded SID); the claim's byte
sequence with each sub-authority reduced to its 4 little-endian bytes
decodes to `S-1-5-21-3328843719-3361044348-30300820-1013`; and in general
the string form of a decoded SID is `S-{revision}-{authority}-` followed
by the decoded sub-authorities joined by `-`. -/
theorem c8_sid_string_form :
    (∀ s sid, (∀ b ∈ s, b < 256) → sidFromBinary s = .ok sid →
      ∀ a ∈ sid.sub_authorities, a < 2 ^ 32)
    ∧ (sidFromBinary c8SidBuf = .ok c8Sid
        ∧ sidToString c8Sid = "S-1-5-21-3328843719-3361044348-30300820-1013")
    ∧ (∀ s sid, sidFromBinary s = .ok sid →
      sidToString sid = "S-" ++ toString (leField s 0 1) ++ "-"
        ++ toString (beBytesToNat (sliceList s 2 8)) ++ "-"
        ++ String.intercalate "-"
            (((List.range (leField s 1 1)).map fun i => leField s (8 + 4 * i) 4).map toString)) := by
  refine ⟨?_, ⟨by rfl, by decide⟩, ?_⟩
  · intro s sid hbytes hok
    by_cases h8 : s.length < 8
    · simp [sidFromBinary, h8] at hok
    · by_cases hsub : s.length < 8 + 4 * leField s 1 1
      · simp [sidFromBinary, h8, hsub] at hok
      · rw [sidFromBinary, if_neg h8, if_neg hsub] at hok
        simp only [Except.ok.injEq] at hok
        subst hok
        intro a ha
        simp only [List.mem_map, List.mem_range] at ha
        obtain ⟨i, _, rfl⟩ := ha
        calc leField s (8 + 4 * i) 4
            < 256 ^ (sliceList s (8 + 4 * i) (8 + 4 * i + 4)).length :=
              leBytesToNat_lt_pow _ fun b hb => hbytes b (sliceList_subset s _ _ b hb)
          _ ≤ 256 ^ 4 :=
              Nat.pow_le_pow_right (by norm_num) (sliceList_length_le s (8 + 4 * i) 4)
          _ = 2 ^ 32 := by norm_num
  · intro s sid hok
    by_cases h8 : s.length < 8
    · simp [sidFromBinary, h8] at hok
    · by_cases hsub : s.length < 8 + 4 * leField s 1 1
      · simp [sidFromBinary, h8, hsub] at hok
      · rw [sidFromBinary, if_neg h8, if_neg hsub] at hok
        simp only [Except.ok.injEq] at hok
        subst hok
        rfl

/-- Witness for C8's amended general facts at a concrete one-sub-authority
SID. -/
theorem c8_sid_string_form_witness :
    ∀ a ∈ (SID.mk 1 5 [7]).sub_authorities, a < 2 ^ 32 :=
  c8_sid_string_form.1 [1, 1, 0, 0, 0, 0, 0, 5, 7, 0, 0, 0]
    (SID.mk 1 5 [7]) (by decide) (by rfl)

/-- C9 counterexample: decoding the same buffer twice with the SID decoder
gives structurally identical records, but the program's `==` on them does
not return True: the generated `SID.__eq__` was exec'd with globals
`{"__name__": "__eq__"}` (`437.py:136-139`), so its `isinstance(other,
SID)` check raises `NameError` before comparing any field — the results
never compare equal by value. -/
theorem c9_generated_eq_raises_nameerror :
    sidFromBinary [1, 1, 0, 0, 0, 0, 0, 5, 44, 0, 0, 0] = .ok ⟨1, 5, [44]⟩
      ∧ pyEqSID ⟨1, 5, [44]⟩ ⟨1, 5, [44]⟩ = .error .nameError :=
  ⟨rfl, rfl⟩

/-- A 26-byte ATTRIBUTE_LIST entry (type 0x10, declared length 26, no
name). -/
def c9EntryBuf : ByteBuf :=
  [0x10, 0, 0, 0] ++ [26, 0] ++ [0] ++ [0] ++ List.replicate 8 0
    ++ List.replicate 8 0 ++ [0, 0]

/-- The entry decoded from `c9EntryBuf`. -/
def c9Entry : AttributeListEntry :=
  { attr_type := 0x10, entry_len := 26, name_offset := 0, start_vcn := 0,
    file_ref := 0, file_seq := 0, attr_id := 0, name := none }

/-- A basic ACE decoded value. -/
def c9Basic : BasicACE :=
  { access_rights_flags := 1,
    sid := { revision_number := 1, authority := 5, sub_authorities := [21] } }

/-- A full ACE decoded value. -/
def c9Ace : ACE :=
  { header := { type := 0, control_flags := 0, ace_size := 20 },
    basic_ace := some c9Basic, object_ace := none }

/-- C9 amended: decoding the same buffer twice is deterministic — for
every modelled decoder the two results are structurally equal records —
but the program's `==` never reports them equal: on every generated
content class the exec'd `__eq__` raises `NameError` (the class name is
absent from its exec namespace) before any field is compared, and the
hand-written `DataRuns` and attribute-header classes define no `__eq__`,
so their objects compare by identity — False for two distinct decode
allocations, even though the contents coincide (for `DataRuns` the two
objects literally alias the one shared list). -/
theorem c9_decode_twice_behavior :
    (∀ s r₁ r₂, timestampsFromBinary s = .ok r₁ → timestampsFromBinary s = .ok r₂ → r₁ = r₂)
    ∧ (∀ s r₁ r₂, stdInfoFromBinary s = .ok r₁ → stdInfoFromBinary s = .ok r₂ → r₁ = r₂)
    ∧ (∀ s r₁ r₂, attrListEntryFromBinary s = .ok r₁ → attrListEntryFromBinary s = .ok r₂ →
        r₁ = r₂)
    ∧ (∀ s r₁ r₂, attrListFromBinary s = .ok r₁ → attrListFromBinary s = .ok r₂ → r₁ = r₂)
    ∧ (∀ s r₁ r₂, sidFromBinary s = .ok r₁ → sidFromBinary s = .ok r₂ → r₁ = r₂)
    ∧ (∀ s r₁ r₂, aceHeaderFromBinary s = .ok r₁ → aceHeaderFromBinary s = .ok r₂ → r₁ = r₂)
    ∧ (∀ s r₁ r₂, basicAceFromBinary s = .ok r₁ → basicAceFromBinary s = .ok r₂ → r₁ = r₂)
    ∧ (∀ s r₁ r₂, aceFromBinary s = .ok r₁ → aceFromBinary s = .ok r₂ → r₁ = r₂)
    ∧ (∀ s r₁ r₂, aclFromBinary s = .ok r₁ → aclFromBinary s = .ok r₂ → r₁ = r₂)
    ∧ (∀ a b : Timestamps, pyEqTimestamps a b = .error .nameError)
    ∧ (∀ a b : StandardInformation, pyEqStdInfo a b = .error .nameError)
    ∧ (∀ a b : AttributeListEntry, pyEqAttrListEntry a b = .error .nameError)
    ∧ (∀ a b : AttributeList, pyEqAttrList a b = .error .nameError)
    ∧ (∀ a b : SID, pyEqSID a b = .error .nameError)
    ∧ (∀ a b : ACEHeader, pyEqACEHeader a b = .error .nameError)
    ∧ (∀ a b : BasicACE, pyEqBasicACE a b = .error .nameError)
    ∧ (∀ a b : ObjectACE, pyEqObjectACE a b = .error .nameError)
    ∧ (∀ a b : ACE, pyEqACE a b = .error .nameError)
    ∧ (∀ a b : ACL, pyEqACL a b = .error .nameError)
    ∧ (∀ i j st l o₁ o₂, dataRunsObjNew i st l = .ok o₁ → dataRunsObjNew j st l = .ok o₂ →
        o₁.data_runs = o₂.data_runs ∧ (i ≠ j → pyEqDataRuns o₁ o₂ = false))
    ∧ (∀ i j s o₁ o₂, baseAttrHeaderObjNew i s = .ok o₁ → baseAttrHeaderObjNew j s = .ok o₂ →
        o₁.header = o₂.header ∧ (i ≠ j → pyEqBaseAttrHeader o₁ o₂ = false)) := by
  refine ⟨fun s r₁ r₂ h₁ h₂ => Except.ok.inj (h₁.symm.trans h₂),
          fun s r₁ r₂ h₁ h₂ => Except.ok.inj (h₁.symm.trans h₂),
          fun s r₁ r₂ h₁ h₂ => Except.ok.inj (h₁.symm.trans h₂),
          fun s r₁ r₂ h₁ h₂ => Except.ok.inj (h₁.symm.trans h₂),
          fun s r₁ r₂ h₁ h₂ => Except.ok.inj (h₁.symm.trans h₂),
          fun s r₁ r₂ h₁ h₂ => Except.ok.inj (h₁.symm.trans h₂),
          fun s r₁ r₂ h₁ h₂ => Except.ok.inj (h₁.symm.trans h₂),
          fun s r₁ r₂ h₁ h₂ => Except.ok.inj (h₁.symm.trans h₂),
          fun s r₁ r₂ h₁ h₂ => Except.ok.inj (h₁.symm.trans h₂),
          fun a b => rfl, fun a b => rfl, fun a b => rfl, fun a b => rfl,
          fun a b => rfl, fun a b => rfl, fun a b => rfl, fun a b => rfl,
          fun a b => rfl, fun a b => rfl, ?_, ?_⟩
  · intro i j st l o₁ o₂ h₁ h₂
    cases hs : dataRunsCreateFromBinary l with
    | error e => simp [dataRunsObjNew, hs, Except.map] at h₁
    | ok rs =>
      simp only [dataRunsObjNew, hs, Except.map, Except.ok.injEq] at h₁ h₂
      subst h₁; subst h₂
      exact ⟨rfl, fun hij => by simp [pyEqDataRuns, hij]⟩
  · intro i j s o₁ o₂ h₁ h₂
    cases hs : baseAttrHeaderFromBinary s with
    | error e => simp [baseAttrHeaderObjNew, hs, Except.map] at h₁
    | ok hd =>
      simp only [baseAttrHeaderObjNew, hs, Except.map, Except.ok.injEq] at h₁ h₂
      subst h₁; subst h₂
      exact ⟨rfl, fun hij => by simp [pyEqBaseAttrHeader, hij]⟩

/-- Witness for C9's amended theorem: every conjunct applied at concrete
records or decodes. -/
theorem c9_decode_twice_behavior_witness :
    (Timestamps.mk ⟨0⟩ ⟨0⟩ ⟨0⟩ ⟨0⟩ = Timestamps.mk ⟨0⟩ ⟨0⟩ ⟨0⟩ ⟨0⟩)
    ∧ (c2Rec48 = c2Rec48)
    ∧ (c9Entry = c9Entry)
    ∧ (AttributeList.mk [c9Entry] = AttributeList.mk [c9Entry])
    ∧ (SID.mk 1 9 [] = SID.mk 1 9 [])
    ∧ (ACEHeader.mk 0 0 8 = ACEHeader.mk 0 0 8)
    ∧ (c9Basic = c9Basic)
    ∧ (c9Ace = c9Ace)
    ∧ (c3GoodAcl = c3GoodAcl)
    ∧ pyEqTimestamps ⟨⟨0⟩, ⟨0⟩, ⟨0⟩, ⟨0⟩⟩ ⟨⟨0⟩, ⟨0⟩, ⟨0⟩, ⟨0⟩⟩ = .error .nameError
    ∧ pyEqStdInfo c2Rec48 c2Rec48 = .error .nameError
    ∧ pyEqAttrListEntry c9Entry c9Entry = .error .nameError
    ∧ pyEqAttrList ⟨[c9Entry]⟩ ⟨[c9Entry]⟩ = .error .nameError
    ∧ pyEqSID ⟨1, 9, []⟩ ⟨1, 9, []⟩ = .error .nameError
    ∧ pyEqACEHeader ⟨0, 0, 8⟩ ⟨0, 0, 8⟩ = .error .nameError
    ∧ pyEqBasicACE c9Basic c9Basic = .error .nameError
    ∧ pyEqObjectACE ⟨0, 0, 0, 0, ⟨1, 5, [21]⟩⟩ ⟨0, 0, 0, 0, ⟨1, 5, [21]⟩⟩ = .error .nameError
    ∧ pyEqACE c9Ace c9Ace = .error .nameError
    ∧ pyEqACL c3GoodAcl c3GoodAcl = .error .nameError
    ∧ ((DataRunsObj.mk [(9, some 3), (2, none)] 0).data_runs
          = (DataRunsObj.mk [(9, some 3), (2, none)] 1).data_runs
        ∧ ((0 : Nat) ≠ (1 : Nat) →
            pyEqDataRuns (DataRunsObj.mk [(9, some 3), (2, none)] 0)
              (DataRunsObj.mk [(9, some 3), (2, none)] 1) = false))
    ∧ ((BaseAttrHeaderObj.mk ⟨0x10, 24, false, 0, 1, none⟩ 0).header
          = (BaseAttrHeaderObj.mk ⟨0x10, 24, false, 0, 1, none⟩ 1).header
        ∧ ((0 : Nat) ≠ (1 : Nat) →
            pyEqBaseAttrHeader (BaseAttrHeaderObj.mk ⟨0x10, 24, false, 0, 1, none⟩ 0)
              (BaseAttrHeaderObj.mk ⟨0x10, 24, false, 0, 1, none⟩ 1) = false)) := by
  obtain ⟨t1, t2, t3, t4, t5, t6, t7, t8, t9, t10, t11, t12, t13, t14, t15, t16, t17,
          t18, t19, t20, t21⟩ := c9_decode_twice_behavior
  refine ⟨t1 (List.replicate 32 0) _ _ (by rfl) (by rfl),
          t2 (List.replicate 48 0) _ _ (by rfl) (by rfl),
          t3 c9EntryBuf _ _ (by rfl) (by rfl),
          t4 c9EntryBuf _ _ (by rfl) (by rfl),
          t5 [1, 0, 0, 0, 0, 0, 0, 9] _ _ (by rfl) (by rfl),
          t6 [0, 0, 8, 0] _ _ (by rfl) (by rfl),
          t7 ([1, 0, 0, 0] ++ [1, 1, 0, 0, 0, 0, 0, 5, 21, 0, 0, 0]) _ _ (by rfl) (by rfl),
          t8 ([0, 0, 20, 0] ++ [1, 0, 0, 0] ++ [1, 1, 0, 0, 0, 0, 0, 5, 21, 0, 0, 0]) _ _
            (by rfl) (by rfl),
          t9 c3GoodBuf _ _ (by rfl) (by rfl),
          t10 _ _, t11 _ _, t12 _ _, t13 _ _, t14 _ _, t15 _ _, t16 _ _, t17 _ _,
          t18 _ _, t19 _ _,
          t20 0 1 [(9, some 3)] [0x01, 0x02, 0x00] _ _ (by rfl) (by rfl),
          t21 0 1 [0x10, 0, 0, 0, 24, 0, 0, 0, 0, 0, 0, 0, 0, 0, 1, 0] _ _ (by rfl) (by rfl)⟩

/-- Slicing inside the left part of an append sees only the left part. -/
theorem sliceList_append_left (b rest : ByteBuf) (i j : Nat) (hj : j ≤ b.length) :
    sliceList (b ++ rest) i j = sliceList b i j := by
  simp only [sliceList, List.take_append_eq_append_take]
  have hz : j - b.length = 0 := by omega
  simp [hz]

/-- A little-endian field read entirely inside the left part of an append. -/
theorem leField_append (b rest : ByteBuf) (off n : Nat) (h : off + n ≤ b.length) :
    leField (b ++ rest) off n = leField b off n := by
  unfold leField
  rw [sliceList_append_left b rest off (off + n) h]

/-- Shape conditions under which `attrListEntryFromBinary` succeeds on a
block regardless of what follows it: the 26-byte fixed header fits, the
attribute type code is known, and the name — when present — lies inside
the block and decodes as UTF-16-LE. -/
def entryHeaderOK (b : ByteBuf) : Prop :=
  26 ≤ b.length ∧ attrTypeValid (leField b 0 4) = true
    ∧ (leField b 6 1 = 0
       ∨ (leField b 7 1 + 2 * leField b 6 1 ≤ b.length
          ∧ (utf16leDecode (sliceList b (leField b 7 1) (leField b 7 1 + 2 * leField b 6 1))).isOk = true))

/-- A correctly self-sized ATTRIBUTE_LIST entry block: well-shaped, and its
declared length field (bytes 4..6) equals its actual byte length. -/
def entryBlockOK (b : ByteBuf) : Prop :=
  entryHeaderOK b ∧ leField b 4 2 = b.length

/-- On a well-shaped block followed by anything, the entry decoder succeeds
and the decoded entry carries the block's declared length. -/
theorem entry_decode_append (b rest : ByteBuf) (hok : entryHeaderOK b) :
    ∃ e, attrListEntryFromBinary (b ++ rest) = .ok e ∧ e.entry_len = leField b 4 2 := by
  obtain ⟨h26, hvalid, hname⟩ := hok
  have hlen : ¬ (b ++ rest).length < 26 := by
    simp only [List.length_append]; omega
  have e0 : leField (b ++ rest) 0 4 = leField b 0 4 := leField_append b rest 0 4 (by omega)
  have e4 : leField (b ++ rest) 4 2 = leField b 4 2 := leField_append b rest 4 2 (by omega)
  have e6 : leField (b ++ rest) 6 1 = leField b 6 1 := leField_append b rest 6 1 (by omega)
  have e7 : leField (b ++ rest) 7 1 = leField b 7 1 := leField_append b rest 7 1 (by omega)
  rw [attrListEntryFromBinary, if_neg hlen]
  simp only [e0, e4, e6, e7]
  by_cases h0 : leField b 6 1 = 0
  · simp only [h0, if_true, hvalid]
    exact ⟨_, rfl, rfl⟩
  · obtain ⟨hreg, hdec⟩ := hname.resolve_left h0
    have esl : sliceList (b ++ rest) (leField b 7 1) (leField b 7 1 + 2 * leField b 6 1)
        = sliceList b (leField b 7 1) (leField b 7 1 + 2 * leField b 6 1) :=
      sliceList_append_left b rest _ _ hreg
    obtain ⟨nm, hnm⟩ : ∃ nm,
        utf16leDecode (sliceList b (leField b 7 1) (leField b 7 1 + 2 * leField b 6 1)) = .ok nm := by
      cases hu : utf16leDecode (sliceList b (leField b 7 1) (leField b 7 1 + 2 * leField b 6 1)) with
      | ok nm => exact ⟨nm, rfl⟩
      | error e => rw [hu] at hdec; simp [Except.isOk, Except.toBool] at hdec
    simp only [h0, if_false, esl, hnm, Except.map, hvalid]
    exact ⟨_, rfl, rfl⟩

/-- A list of blocks each at least 26 bytes long has no more blocks than
total bytes. -/
theorem blocks_length_le_flatten (bs : List ByteBuf) (h : ∀ b ∈ bs, 26 ≤ b.length) :
    bs.length ≤ bs.flatten.length := by
  induction bs with
  | nil => simp
  | cons b t ih =>
    have hb := h b (by simp)
    have ht := ih fun x hx => h x (by simp [hx])
    simp only [List.flatten_cons, List.length_append, List.length_cons]
    omega

theorem attrListGo_blocks : ∀ (bs : List ByteBuf) (s : ByteBuf) (offset fuel : Nat),
    bs ≠ [] → (∀ b ∈ bs, entryBlockOK b) → s.drop offset = bs.flatten →
    offset ≤ s.length → bs.length ≤ fuel →
    ∃ es, attrListGo fuel s offset = .ok es ∧ es.length = bs.length := by
  intro bs
  induction bs with
  | nil => intro s offset fuel hne; exact absurd rfl hne
  | cons b bs ih =>
    intro s offset fuel _ hok hdrop hoff hfuel
    have hf1 : 1 ≤ fuel := le_trans (by simp) hfuel
    obtain ⟨f, rfl⟩ : ∃ f, fuel = f + 1 := ⟨fuel - 1, by omega⟩
    have hbOK : entryBlockOK b := hok b (by simp)
    have hjoin : s.drop offset = b ++ bs.flatten := by
      rw [hdrop, List.flatten_cons]
    obtain ⟨e, he, helen⟩ := entry_decode_append b bs.flatten hbOK.1
    have hlen_eq : e.entry_len = b.length := by rw [helen, hbOK.2]
    have hslen : s.length = offset + b.length + bs.flatten.length := by
      have hl := congrArg List.length hjoin
      rw [List.length_drop, List.length_append] at hl
      omega
    simp only [attrListGo, hjoin, he, hlen_eq]
    cases bs with
    | nil =>
      have hcond : s.length ≤ offset + b.length := by
        rw [hslen]; simp
      rw [if_pos hcond]
      exact ⟨[e], rfl, by simp⟩
    | cons b' bs' =>
      have hb' : 26 ≤ b'.length := (hok b' (by simp)).1.1
      have hjlen : 1 ≤ (b' :: bs').flatten.length := by
        simp only [List.flatten_cons, List.length_append]; omega
      have hcond : ¬ s.length ≤ offset + b.length := by omega
      rw [if_neg hcond]
      have hdrop2 : s.drop (offset + b.length) = (b' :: bs').flatten := by
        have h1 : s.drop (offset + b.length) = (s.drop offset).drop b.length := by
          rw [List.drop_drop, Nat.add_comm]
        rw [h1, hjoin, List.drop_left]
      obtain ⟨es, hgo, hlen⟩ :=
        ih s (offset + b.length) f (by simp) (fun x hx => hok x (by simp [hx]))
          hdrop2 (by omega) (by simpa using hfuel)
      rw [hgo]
      exact ⟨e :: es, rfl, by simp [hlen]⟩

theorem attrListGo_blocks_trunc : ∀ (bs : List ByteBuf) (t : ByteBuf) (s : ByteBuf)
    (offset fuel : Nat),
    (∀ b ∈ bs, entryBlockOK b) → entryHeaderOK t → leField t 4 2 = t.length + 1 →
    s.drop offset = bs.flatten ++ t → offset ≤ s.length → bs.length + 1 ≤ fuel →
    ∃ es, attrListGo fuel s offset = .ok es ∧ es.length = bs.length + 1 := by
  intro bs
  induction bs with
  | nil =>
    intro t s offset fuel _ htOK htlen hdrop hoff hfuel
    obtain ⟨f, rfl⟩ : ∃ f, fuel = f + 1 := ⟨fuel - 1, by omega⟩
    have hjoin : s.drop offset = t ++ [] := by simpa using hdrop
    obtain ⟨e, he, helen⟩ := entry_decode_append t [] htOK
    have hlen_eq : e.entry_len = t.length + 1 := by rw [helen, htlen]
    have hslen : s.length = offset + t.length := by
      have hl := congrArg List.length hjoin
      rw [List.length_drop, List.length_append] at hl
      simp only [List.length_nil, Nat.add_zero] at hl
      omega
    simp only [attrListGo, hjoin, he, hlen_eq]
    have hcond : s.length ≤ offset + (t.length + 1) := by omega
    rw [if_pos hcond]
    exact ⟨[e], rfl, by simp⟩
  | cons b bs ih =>
    intro t s offset fuel hok htOK htlen hdrop hoff hfuel
    have hf1 : 1 ≤ fuel := le_trans (by omega) hfuel
    obtain ⟨f, rfl⟩ : ∃ f, fuel = f + 1 := ⟨fuel - 1, by omega⟩
    have hbOK : entryBlockOK b := hok b (by simp)
    have hjoin : s.drop offset = b ++ (bs.flatten ++ t) := by
      rw [hdrop, List.flatten_cons, List.append_assoc]
    obtain ⟨e, he, helen⟩ := entry_decode_append b (bs.flatten ++ t) hbOK.1
    have hlen_eq : e.entry_len = b.length := by rw [helen, hbOK.2]
    have hslen : s.length = offset + b.length + bs.flatten.length + t.length := by
      have hl := congrArg List.length hjoin
      rw [List.length_drop, List.length_append, List.length_append] at hl
      omega
    have ht26 : 26 ≤ t.length := htOK.1
    simp only [attrListGo, hjoin, he, hlen_eq]
    have hcond : ¬ s.length ≤ offset + b.length := by omega
    rw [if_neg hcond]
    have hdrop2 : s.drop (offset + b.length) = bs.flatten ++ t := by
      have h1 : s.drop (offset + b.length) = (s.drop offset).drop b.length := by
        rw [List.drop_drop, Nat.add_comm]
      rw [h1, hjoin, List.drop_left]
    obtain ⟨es, hgo, hlen⟩ :=
      ih t s (offset + b.length) f (fun x hx => hok x (by simp [hx])) htOK htlen
        hdrop2 (by omega) (by simpa using hfuel)
    rw [hgo]
    exact ⟨e :: es, rfl, by simp [hlen]⟩

theorem attrListGo_blocks_short : ∀ (bs : List ByteBuf) (t : ByteBuf) (s : ByteBuf)
    (offset fuel : Nat),
    (∀ b ∈ bs, entryBlockOK b) → 1 ≤ t.length → t.length < 26 →
    s.drop offset = bs.flatten ++ t → offset ≤ s.length → bs.length + 1 ≤ fuel →
    attrListGo fuel s offset = .error .structError := by
  intro bs
  induction bs with
  | nil =>
    intro t s offset fuel _ ht1 ht26 hdrop hoff hfuel
    obtain ⟨f, rfl⟩ : ∃ f, fuel = f + 1 := ⟨fuel - 1, by omega⟩
    have hjoin : s.drop offset = t := by simpa using hdrop
    have hdec : attrListEntryFromBinary t = .error .structError := by
      rw [attrListEntryFromBinary, if_pos ht26]
    simp only [attrListGo, hjoin, hdec]
  | cons b bs ih =>
    intro t s offset fuel hok ht1 ht26 hdrop hoff hfuel
    have hf1 : 1 ≤ fuel := le_trans (by omega) hfuel
    obtain ⟨f, rfl⟩ : ∃ f, fuel = f + 1 := ⟨fuel - 1, by omega⟩
    have hbOK : entryBlockOK b := hok b (by simp)
    have hjoin : s.drop offset = b ++ (bs.flatten ++ t) := by
      rw [hdrop, List.flatten_cons, List.append_assoc]
    obtain ⟨e, he, helen⟩ := entry_decode_append b (bs.flatten ++ t) hbOK.1
    have hlen_eq : e.entry_len = b.length := by rw [helen, hbOK.2]
    have hslen : s.length = offset + b.length + bs.flatten.length + t.length := by
      have hl := congrArg List.length hjoin
      rw [List.length_drop, List.length_append, List.length_append] at hl
      omega
    simp only [attrListGo, hjoin, he, hlen_eq]
    have hcond : ¬ s.length ≤ offset + b.length := by omega
    rw [if_neg hcond]
    have hdrop2 : s.drop (offset + b.length) = bs.flatten ++ t := by
      have h1 : s.drop (offset + b.length) = (s.drop offset).drop b.length := by
        rw [List.drop_drop, Nat.add_comm]
      rw [h1, hjoin, List.drop_left]
    rw [ih t s (offset + b.length) f (fun x hx => hok x (by simp [hx])) ht1 ht26
        hdrop2 (by omega) (by simpa using hfuel)]

/-- A 26-byte entry whose declared length field says 27: one byte more
than the buffer holds. -/
def c6ShortBuf : ByteBuf :=
  [0x10, 0, 0, 0] ++ [27, 0] ++ [0] ++ [0] ++ List.replicate 8 0
    ++ List.replicate 8 0 ++ [0, 0]

/-- C6 counterexample: on a buffer one byte shorter than the (single) last
entry's declared length, `AttributeList.create_from_binary` does **not**
fail — the 26-byte fixed header still unpacks, the entry is returned with
its overshooting declared length, and the loop exits normally with one
entry.  No `TruncatedInputError` (or any error) is raised. -/
theorem c6_attrlist_short_entry_succeeds :
    attrListFromBinary c6ShortBuf =
      .ok ⟨[{ attr_type := 0x10, entry_len := 27, name_offset := 0, start_vcn := 0,
              file_ref := 0, file_seq := 0, attr_id := 0, name := none }]⟩ := by
  rfl

/-- C6 amended: (i) a buffer that is exactly the concatenation of N ≥ 1
entries, each well-shaped with a correct self-declared length, decodes to
exactly N entries; (ii) when the last entry is one byte shorter than its
declared length but its 26-byte fixed header still fits, the decode
*succeeds* anyway with all N entries (silent short entry); (iii) only when
fewer than the fixed 26 header bytes remain does the decode fail, with the
`struct.error` of the header unpack (the code's stand-in for
`TruncatedInputError`), never a silent short entry. -/
theorem c6_attrlist_termination :
    (∀ bs : List ByteBuf, bs ≠ [] → (∀ b ∈ bs, entryBlockOK b) →
      ∃ es, attrListFromBinary bs.flatten = .ok ⟨es⟩ ∧ es.length = bs.length)
    ∧ (∀ (bs : List ByteBuf) (t : ByteBuf), (∀ b ∈ bs, entryBlockOK b) →
      entryHeaderOK t → leField t 4 2 = t.length + 1 →
      ∃ es, attrListFromBinary (bs.flatten ++ t) = .ok ⟨es⟩ ∧ es.length = bs.length + 1)
    ∧ (∀ (bs : List ByteBuf) (t : ByteBuf), (∀ b ∈ bs, entryBlockOK b) →
      1 ≤ t.length → t.length < 26 →
      attrListFromBinary (bs.flatten ++ t) = .error .structError) := by
  refine ⟨?_, ?_, ?_⟩
  · intro bs hne hok
    have hbound : bs.length ≤ bs.flatten.length + 2 := by
      have := blocks_length_le_flatten bs fun b hb => (hok b hb).1.1
      omega
    obtain ⟨es, hgo, hlen⟩ :=
      attrListGo_blocks bs bs.flatten 0 (bs.flatten.length + 2) hne hok
        (by simp) (by simp) hbound
    exact ⟨es, by unfold attrListFromBinary; rw [hgo]; rfl, hlen⟩
  · intro bs t hok htOK htlen
    have hbound : bs.length + 1 ≤ (bs.flatten ++ t).length + 2 := by
      have := blocks_length_le_flatten bs fun b hb => (hok b hb).1.1
      simp only [List.length_append]
      omega
    obtain ⟨es, hgo, hlen⟩ :=
      attrListGo_blocks_trunc bs t (bs.flatten ++ t) 0 ((bs.flatten ++ t).length + 2)
        hok htOK htlen (by simp) (by simp) hbound
    exact ⟨es, by unfold attrListFromBinary; rw [hgo]; rfl, hlen⟩
  · intro bs t hok ht1 ht26
    have hbound : bs.length + 1 ≤ (bs.flatten ++ t).length + 2 := by
      have := blocks_length_le_flatten bs fun b hb => (hok b hb).1.1
      simp only [List.length_append]
      omega
    have hgo :=
      attrListGo_blocks_short bs t (bs.flatten ++ t) 0 ((bs.flatten ++ t).length + 2)
        hok ht1 ht26 (by simp) (by simp) hbound
    unfold attrListFromBinary
    rw [hgo]
    rfl

/-- A correctly self-sized 26-byte entry block (attr id 7). -/
def c6Block : ByteBuf :=
  [0x10, 0, 0, 0] ++ [26, 0] ++ [0] ++ [0] ++ List.replicate 8 0
    ++ List.replicate 8 0 ++ [7, 0]

/-- A 26-byte truncated last entry declaring 27 bytes (attr id 9). -/
def c6Trunc : ByteBuf :=
  [0x10, 0, 0, 0] ++ [27, 0] ++ [0] ++ [0] ++ List.replicate 8 0
    ++ List.replicate 8 0 ++ [9, 0]

instance (b : ByteBuf) : Decidable (entryHeaderOK b) := by
  unfold entryHeaderOK; infer_instance

instance (b : ByteBuf) : Decidable (entryBlockOK b) := by
  unfold entryBlockOK; infer_instance

/-- Witness for C6's amended theorem: each part applied at concrete
buffers. -/
theorem c6_attrlist_termination_witness :
    (∃ es, attrListFromBinary [c6Block].flatten = .ok ⟨es⟩ ∧ es.length = 1)
    ∧ (∃ es, attrListFromBinary (([] : List ByteBuf).flatten ++ c6Trunc) = .ok ⟨es⟩
        ∧ es.length = 0 + 1)
    ∧ attrListFromBinary (([] : List ByteBuf).flatten ++ [0x10]) = .error .structError := by
  obtain ⟨t1, t2, t3⟩ := c6_attrlist_termination
  exact ⟨t1 [c6Block] (by simp) (by decide),
         t2 [] c6Trunc (by simp) (by decide) (by decide),
         t3 [] [0x10] (by simp) (by decide) (by decide)⟩
